import Mathlib

/-!
Verification development for the `torchlayers` convolution module
(`src/torchlayers/convolution.py`), centred on the same-padding resolver
(`Conv._dimension_pad`, `Conv._expand_if_needed`, `Conv._pad`), the hook
wiring of `Conv.__init__` / `ConvTranspose.__init__`, and `Residual.forward`.

Python integers are modelled by `Int` (`%` is `Int.emod`, floor division is
`Int.ediv`, both matching Python's semantics for a positive divisor), tensor
shapes by `List Int`, and raised exceptions by `Except String`.
-/

deriving instance DecidableEq for Except

/-- A per-axis constructor argument (`kernel_size`, `stride`, `dilation`):
either a scalar int or an iterable (tuple) of ints. -/
inductive Arg where
  | scalar (value : Int)
  | seq (values : List Int)
  deriving DecidableEq

/-- The `padding` constructor argument: a string (e.g. `"same"`), a scalar
int, or a tuple of ints. -/
inductive Padding where
  | str (value : String)
  | scalar (value : Int)
  | seq (values : List Int)
  deriving DecidableEq

/-- The keyword arguments stored by `Conv.__init__` and handed to the
construction hook `Conv._pad` (convolution.py lines 82-93). -/
structure ConvKwargs where
  in_channels : Int
  out_channels : Int
  kernel_size : Arg
  stride : Arg
  padding : Padding
  dilation : Arg
  groups : Int
  bias : Bool
  padding_mode : String
  deriving DecidableEq

/-- The exact message of the `ValueError` raised by `Conv._dimension_pad`
(convolution.py lines 98-100). -/
def oddKernelMsg : String :=
  "Only odd kernel size for padding \"same\" is currently supported."

/-- `Conv._dimension_pad` (convolution.py lines 96-104): rejects an even
kernel size, otherwise returns
`math.ceil((dimension * stride - dimension + dilation * (kernel_size - 1)) / 2)`.
For an integer `x`, `math.ceil(x / 2)` equals the integer floor division
`(x + 1) / 2`. -/
def Conv._dimension_pad (dimension kernel_size stride dilation : Int) :
    Except String Int :=
  if kernel_size % 2 = 0 then
    Except.error oddKernelMsg
  else
    Except.ok
      ((dimension * stride - dimension + dilation * (kernel_size - 1) + 1) / 2)

/-- `Conv._expand_if_needed` (convolution.py lines 106-110): an iterable
argument is used as-is, a scalar is repeated once per spatial axis. -/
def Conv._expand_if_needed (dimensions : List Int) (argument : Arg) : List Int :=
  match argument with
  | Arg.seq values => values
  | Arg.scalar value => List.replicate dimensions.length value

/-- Python's `str.lower()` restricted to its effect on ASCII letters,
character by character. -/
def pyLower (s : String) : String :=
  String.mk (s.data.map Char.toLower)

/-- The trigger test of `Conv._pad` (convolution.py line 114):
`isinstance(kwargs["padding"], str) and kwargs["padding"].lower() == "same"`. -/
def isSamePadding (padding : Padding) : Bool :=
  match padding with
  | Padding.str value => pyLower value == "same"
  | _ => false

/-- Python's `zip` of four sequences: truncates to the shortest. -/
def zip4 (dims ks ss dls : List Int) : List (Int × Int × Int × Int) :=
  dims.zip (ks.zip (ss.zip dls))

/-- The tuple-comprehension of `Conv._pad` (convolution.py lines 116-125):
`Conv._dimension_pad` applied left-to-right to each zipped quadruple; the
first raised `ValueError` aborts the whole comprehension. -/
def dimensionPads : List (Int × Int × Int × Int) → Except String (List Int)
  | [] => Except.ok []
  | (d, k, s, dl) :: rest =>
    match Conv._dimension_pad d k s dl with
    | Except.error e => Except.error e
    | Except.ok p =>
      match dimensionPads rest with
      | Except.error e => Except.error e
      | Except.ok ps => Except.ok (p :: ps)

/-- `Conv._pad` (convolution.py lines 113-128): when the stored padding is
the case-insensitive string `"same"`, replaces `kwargs["padding"]` with the
per-axis padding tuple computed from the spatial extents `inputs.shape[2:]`
and the (broadcast) kernel/stride/dilation; otherwise the kwargs are
forwarded unchanged. The returned kwargs are exactly those passed to
`inner_class(**kwargs)`; an error means the concrete operator is never
built. -/
def Conv._pad (inputsShape : List Int) (kwargs : ConvKwargs) :
    Except String ConvKwargs :=
  if isSamePadding kwargs.padding then
    match dimensionPads (zip4 (inputsShape.drop 2)
        (Conv._expand_if_needed (inputsShape.drop 2) kwargs.kernel_size)
        (Conv._expand_if_needed (inputsShape.drop 2) kwargs.stride)
        (Conv._expand_if_needed (inputsShape.drop 2) kwargs.dilation)) with
    | Except.error e => Except.error e
    | Except.ok paddings => Except.ok { kwargs with padding := Padding.seq paddings }
  else
    Except.ok kwargs

/-- The padding entry that reaches the concrete factory. -/
def resolvedPadding (inputsShape : List Int) (kwargs : ConvKwargs) :
    Except String Padding :=
  Except.map (fun k => k.padding) (Conv._pad inputsShape kwargs)

/-- The construction hook stored by `Conv.__init__` (convolution.py line 83):
`instance_creator=Conv._pad` is passed to the wrapper. -/
def Conv.instanceCreator : List Int → ConvKwargs → Except String ConvKwargs :=
  Conv._pad

/-- Modelled from the spec: the Deferred Specialization Wrapper
(`_dev_utils.modules.InferDimension`, not under `src/`) defaults its
construction hook to calling the chosen factory with the kwargs unchanged
when no `instance_creator` is supplied (spec section 4.1, step 3). The
returned kwargs are those the factory receives. -/
def defaultInstanceCreator {α : Type} (_inputsShape : List Int) (kwargs : α) :
    Except String α :=
  Except.ok kwargs

/-- The keyword arguments stored by `ConvTranspose.__init__`
(convolution.py lines 197-208). -/
structure ConvTransposeKwargs where
  in_channels : Int
  out_channels : Int
  kernel_size : Arg
  stride : Arg
  padding : Padding
  output_padding : Arg
  groups : Int
  bias : Bool
  dilation : Arg
  padding_mode : String
  deriving DecidableEq

/-- `ConvTranspose.__init__` (convolution.py lines 197-208) passes no
`instance_creator`, so the wrapper uses the default pass-through hook. -/
def ConvTranspose.instanceCreator :
    List Int → ConvTransposeKwargs → Except String ConvTransposeKwargs :=
  defaultInstanceCreator

/-- Modelled from the spec: the output-extent convention of the underlying
convolution operator (PyTorch, external to `src/`) for one spatial axis:
`out = floor((n + 2 * padding - dilation * (kernel - 1) - 1) / stride) + 1`,
the convention the spec's same-padding formula is stated against
(spec section 4.2 and property P3). -/
def convOutputExtent (n padding kernel stride dilation : Int) : Int :=
  (n + 2 * padding - dilation * (kernel - 1) - 1) / stride + 1

/-- The `Residual` module's fields as assigned by `Residual.__init__`
(convolution.py lines 294-297). -/
structure Residual (α : Type) where
  module : α → α
  projection : Option (α → α)

/-- A value obtained by attribute lookup on a `Residual` instance. -/
inductive ResidualAttr (α : Type) where
  | callable (f : α → α)
  | noneVal

/-- Attribute lookup on a `Residual` instance: `__init__` assigns exactly
the names `module` and `projection` (convolution.py lines 294-297); any
other name raises `AttributeError`. -/
def Residual.getattr {α : Type} (r : Residual α) (name : String) :
    Except String (ResidualAttr α) :=
  if name = "module" then
    Except.ok (ResidualAttr.callable r.module)
  else if name = "projection" then
    Except.ok
      (match r.projection with
       | some f => ResidualAttr.callable f
       | none => ResidualAttr.noneVal)
  else
    Except.error ("AttributeError: " ++ name)

/-- `Residual.forward` (convolution.py lines 299-303): computes
`output = self.module(inputs)`; when `self.projection is not None` it
evaluates `self.projections(inputs)` — an attribute lookup of the name
`"projections"` — and rebinds `inputs` to the call's result before
returning `output + inputs`. -/
def Residual.forward {α : Type} [Add α] (r : Residual α) (inputs : α) :
    Except String α :=
  let output := r.module inputs
  match r.projection with
  | some _ =>
    match r.getattr "projections" with
    | Except.error e => Except.error e
    | Except.ok (ResidualAttr.callable f) => Except.ok (output + f inputs)
    | Except.ok ResidualAttr.noneVal => Except.error "TypeError: NoneType is not callable"
  | none => Except.ok (output + inputs)

/-- The closed form of the value `Conv._dimension_pad` returns on a zipped
quadruple `(dimension, kernel, stride, dilation)` when it does not raise. -/
def padFormula (q : Int × Int × Int × Int) : Int :=
  (q.1 * q.2.2.1 - q.1 + q.2.2.2 * (q.2.1 - 1) + 1) / 2

lemma dimension_pad_of_odd {d k s dl : Int} (hk : k % 2 = 1) :
    Conv._dimension_pad d k s dl =
      Except.ok ((d * s - d + dl * (k - 1) + 1) / 2) := by
  unfold Conv._dimension_pad
  rw [if_neg (by omega)]

lemma dimensionPads_eq_map (quads : List (Int × Int × Int × Int))
    (h : ∀ q ∈ quads, q.2.1 % 2 = 1) :
    dimensionPads quads = Except.ok (quads.map padFormula) := by
  induction quads with
  | nil => rfl
  | cons q rest ih =>
    obtain ⟨d, k, s, dl⟩ := q
    have hq : k % 2 = 1 := h (d, k, s, dl) (List.mem_cons_self _ _)
    have hrest := ih (fun q hmem => h q (List.mem_cons_of_mem _ hmem))
    simp only [dimensionPads, dimension_pad_of_odd hq, hrest, List.map_cons]
    rfl

lemma dimensionPads_error_of_even (quads : List (Int × Int × Int × Int))
    (h : ∃ q ∈ quads, q.2.1 % 2 = 0) :
    dimensionPads quads = Except.error oddKernelMsg := by
  induction quads with
  | nil => simp at h
  | cons q rest ih =>
    obtain ⟨d, k, s, dl⟩ := q
    by_cases hk : k % 2 = 0
    · simp only [dimensionPads, Conv._dimension_pad, if_pos hk]
    · have hodd : k % 2 = 1 := by omega
      have hrest : ∃ q ∈ rest, q.2.1 % 2 = 0 := by
        obtain ⟨q, hq, heven⟩ := h
        rcases List.mem_cons.mp hq with heq | hmem
        · exfalso
          rw [heq] at heven
          exact hk heven
        · exact ⟨q, hmem, heven⟩
      simp only [dimensionPads, dimension_pad_of_odd hodd, ih hrest]

lemma mem_zip4 {q : Int × Int × Int × Int} {dims ks ss dls : List Int}
    (h : q ∈ zip4 dims ks ss dls) :
    q.1 ∈ dims ∧ q.2.1 ∈ ks ∧ q.2.2.1 ∈ ss ∧ q.2.2.2 ∈ dls := by
  obtain ⟨d, k, s, dl⟩ := q
  obtain ⟨h1, h2⟩ := List.of_mem_zip h
  obtain ⟨h3, h4⟩ := List.of_mem_zip h2
  obtain ⟨h5, h6⟩ := List.of_mem_zip h4
  exact ⟨h1, h3, h5, h6⟩

lemma zip4_length (dims ks ss dls : List Int) :
    (zip4 dims ks ss dls).length =
      min dims.length (min ks.length (min ss.length dls.length)) := by
  unfold zip4
  rw [List.length_zip, List.length_zip, List.length_zip]

/-- The quadruples `(dimension, kernel, stride, dilation)` that the
tuple-comprehension of `Conv._pad` iterates over. -/
def convQuads (inputsShape : List Int) (kwargs : ConvKwargs) :
    List (Int × Int × Int × Int) :=
  zip4 (inputsShape.drop 2)
    (Conv._expand_if_needed (inputsShape.drop 2) kwargs.kernel_size)
    (Conv._expand_if_needed (inputsShape.drop 2) kwargs.stride)
    (Conv._expand_if_needed (inputsShape.drop 2) kwargs.dilation)

/-- The numerator of the same-padding formula on one zipped quadruple. -/
def sameNumerator (q : Int × Int × Int × Int) : Int :=
  q.1 * q.2.2.1 - q.1 + q.2.2.2 * (q.2.1 - 1)

lemma conv_pad_same_error {shape : List Int} {kw : ConvKwargs} {e : String}
    (hsame : isSamePadding kw.padding = true)
    (herr : dimensionPads (convQuads shape kw) = Except.error e) :
    Conv._pad shape kw = Except.error e := by
  unfold Conv._pad
  unfold convQuads at herr
  rw [if_pos hsame, herr]

lemma conv_pad_same_ok_of {shape : List Int} {kw : ConvKwargs} {ps : List Int}
    (hsame : isSamePadding kw.padding = true)
    (hok : dimensionPads (convQuads shape kw) = Except.ok ps) :
    Conv._pad shape kw = Except.ok { kw with padding := Padding.seq ps } := by
  unfold Conv._pad
  unfold convQuads at hok
  rw [if_pos hsame, hok]

lemma conv_pad_same_ok {shape : List Int} {kw : ConvKwargs}
    (hsame : isSamePadding kw.padding = true)
    (hodd : ∀ q ∈ convQuads shape kw, q.2.1 % 2 = 1) :
    Conv._pad shape kw =
      Except.ok
        { kw with padding := Padding.seq ((convQuads shape kw).map padFormula) } :=
  conv_pad_same_ok_of hsame (dimensionPads_eq_map _ hodd)

/-- The side condition for `zip`-based pairing to be well-formed: a scalar
is always fine, a supplied iterable must have one entry per spatial axis. -/
def argMatches (dims : List Int) (a : Arg) : Prop :=
  match a with
  | Arg.scalar _ => True
  | Arg.seq values => values.length = dims.length

lemma expand_length (dims : List Int) (a : Arg) (h : argMatches dims a) :
    (Conv._expand_if_needed dims a).length = dims.length := by
  cases a with
  | scalar v => simp [Conv._expand_if_needed]
  | seq values => simpa [Conv._expand_if_needed, argMatches] using h

lemma expand_replicate (dims : List Int) (v : Int) :
    Conv._expand_if_needed dims (Arg.seq (List.replicate dims.length v)) =
      Conv._expand_if_needed dims (Arg.scalar v) := rfl

/-- Constructor arguments shared by the concrete witnesses below: the
defaults of `Conv.__init__` with `in_channels=3`, `out_channels=8`. -/
def kwSame : ConvKwargs :=
  { in_channels := 3, out_channels := 8, kernel_size := Arg.scalar 3,
    stride := Arg.scalar 1, padding := Padding.str "same",
    dilation := Arg.scalar 1, groups := 1, bias := true,
    padding_mode := "zeros" }

/-- As `kwSame` but with an even kernel on the first spatial axis. -/
def kwEvenAxis0 : ConvKwargs :=
  { kwSame with kernel_size := Arg.seq [4, 3] }

/-- As `kwSame` but with an even kernel on the second spatial axis. -/
def kwEvenAxis1 : ConvKwargs :=
  { kwSame with kernel_size := Arg.seq [3, 4] }

/-- As `kwSame` but with an explicit integer padding. -/
def kwExplicitPad : ConvKwargs :=
  { kwSame with padding := Padding.scalar 2 }

/-- As `kwSame` but with a kernel tuple shorter than the number of spatial
axes. -/
def kwShortKernel : ConvKwargs :=
  { kwSame with kernel_size := Arg.seq [3] }

/-- A `Residual` built with a projection module, over `Int`. -/
def residualWithProj : Residual Int :=
  { module := fun x => 2 * x, projection := some (fun x => x) }

/-- A `Residual` built without a projection module, over `Int`. -/
def residualNoProj : Residual Int :=
  { module := fun x => 2 * x, projection := none }

lemma resolvedPadding_congr (shape : List Int) (kw1 kw2 : ConvKwargs)
    (hpad : kw1.padding = kw2.padding)
    (hk : Conv._expand_if_needed (shape.drop 2) kw1.kernel_size =
      Conv._expand_if_needed (shape.drop 2) kw2.kernel_size)
    (hs : Conv._expand_if_needed (shape.drop 2) kw1.stride =
      Conv._expand_if_needed (shape.drop 2) kw2.stride)
    (hd : Conv._expand_if_needed (shape.drop 2) kw1.dilation =
      Conv._expand_if_needed (shape.drop 2) kw2.dilation) :
    resolvedPadding shape kw1 = resolvedPadding shape kw2 := by
  unfold resolvedPadding Conv._pad
  rw [hpad, hk, hs, hd]
  by_cases hsp : isSamePadding kw2.padding = true
  · rw [if_pos hsp, if_pos hsp]
    cases hdp : dimensionPads (zip4 (shape.drop 2)
        (Conv._expand_if_needed (shape.drop 2) kw2.kernel_size)
        (Conv._expand_if_needed (shape.drop 2) kw2.stride)
        (Conv._expand_if_needed (shape.drop 2) kw2.dilation)) with
    | error e => simp [hdp]
    | ok ps => simp [hdp, Except.map]
  · rw [if_neg hsp, if_neg hsp]
    simp [Except.map, hpad]

/-- C1: for every spatial axis `i`, when padding is the symbolic string
"same", `Conv._pad` sets the per-axis padding to the ceiling of
`(dimension_i * stride_i - dimension_i + dilation_i * (kernel_i - 1)) / 2`,
where the per-axis parameters are the (possibly broadcast) entries paired
with axis `i`: `p_i` is characterised as the unique integer with
`num_i ≤ 2 * p_i ≤ num_i + 1`. -/
theorem conv_pad_same_entries_are_ceil (shape : List Int) (kw : ConvKwargs)
    (hsame : isSamePadding kw.padding = true)
    (hodd : ∀ q ∈ convQuads shape kw, q.2.1 % 2 = 1) :
    ∃ ps, Conv._pad shape kw = Except.ok { kw with padding := Padding.seq ps } ∧
      ps.length = (convQuads shape kw).length ∧
      ∀ (i : Nat) (hip : i < ps.length) (hiq : i < (convQuads shape kw).length),
        sameNumerator ((convQuads shape kw).get ⟨i, hiq⟩) ≤ 2 * ps.get ⟨i, hip⟩ ∧
          2 * ps.get ⟨i, hip⟩ ≤ sameNumerator ((convQuads shape kw).get ⟨i, hiq⟩) + 1 := by
  refine ⟨_, conv_pad_same_ok hsame hodd, by rw [List.length_map], ?_⟩
  intro i hip hiq
  rw [List.get_map]
  obtain ⟨d, k, s, dl⟩ := (convQuads shape kw).get ⟨i, hiq⟩
  simp only [sameNumerator, padFormula]
  constructor
  · generalize d * s - d + dl * (k - 1) = x
    omega
  · generalize d * s - d + dl * (k - 1) = x
    omega

/-- Witness for C1 at the concrete input of spec property P7: spatial
extents `(16, 16)`, scalar kernel 3, stride 1, dilation 1. -/
theorem conv_pad_same_entries_are_ceil_witness :
    ∃ ps, Conv._pad [2, 3, 16, 16] kwSame =
        Except.ok { kwSame with padding := Padding.seq ps } ∧
      ps.length = (convQuads [2, 3, 16, 16] kwSame).length ∧
      ∀ (i : Nat) (hip : i < ps.length)
        (hiq : i < (convQuads [2, 3, 16, 16] kwSame).length),
        sameNumerator ((convQuads [2, 3, 16, 16] kwSame).get ⟨i, hiq⟩) ≤
            2 * ps.get ⟨i, hip⟩ ∧
          2 * ps.get ⟨i, hip⟩ ≤
            sameNumerator ((convQuads [2, 3, 16, 16] kwSame).get ⟨i, hiq⟩) + 1 :=
  conv_pad_same_entries_are_ceil [2, 3, 16, 16] kwSame (by decide) (by decide)

/-- C2 (counterexample): the error raised for an even kernel under "same"
padding does not name the offending axis. Two configurations whose even
kernel sits on different spatial axes (axis 0 for `kwEvenAxis0`, axis 1 for
`kwEvenAxis1`) raise exactly the same error, whose message is the constant
string below, so the error carries no axis information. -/
theorem conv_pad_even_kernel_error_names_no_axis :
    Conv._pad [1, 3, 8, 8] kwEvenAxis0 = Except.error oddKernelMsg ∧
    Conv._pad [1, 3, 8, 8] kwEvenAxis1 = Except.error oddKernelMsg ∧
    oddKernelMsg =
      "Only odd kernel size for padding \"same\" is currently supported." :=
  ⟨by decide, by decide, rfl⟩

/-- C2 (amended): if "same" padding is requested and the resolved kernel on
some zipped spatial axis is even, `Conv._pad` raises the (fixed,
axis-agnostic) `ValueError` instead of returning kwargs, so no kwargs ever
reach the concrete factory `inner_class` and no operator is built. -/
theorem conv_pad_even_kernel_raises_before_build (shape : List Int)
    (kw : ConvKwargs) (hsame : isSamePadding kw.padding = true)
    (heven : ∃ q ∈ convQuads shape kw, q.2.1 % 2 = 0) :
    Conv._pad shape kw = Except.error oddKernelMsg :=
  conv_pad_same_error hsame (dimensionPads_error_of_even _ heven)

/-- Witness for the amended C2: `kernel_size=(4, 3)` with `padding="same"`
on a rank-4 input fails with the `ValueError` and builds nothing. -/
theorem conv_pad_even_kernel_raises_before_build_witness :
    Conv._pad [1, 3, 8, 8] kwEvenAxis0 = Except.error oddKernelMsg :=
  conv_pad_even_kernel_raises_before_build [1, 3, 8, 8] kwEvenAxis0
    (by decide) (by decide)

/-- C3: for every odd kernel `k`, dilation `dl ≥ 1` and input extent `n`,
with stride 1, the output extent of the underlying convolution after
applying the resolved "same" padding symmetrically equals `n`. -/
theorem conv_same_padding_preserves_extent_stride_one (n k dl : Int)
    (hk : k % 2 = 1) (hdl : 1 ≤ dl) :
    ∃ p, Conv._dimension_pad n k 1 dl = Except.ok p ∧
      convOutputExtent n p k 1 dl = n := by
  obtain ⟨t, ht⟩ : ∃ t, k - 1 = 2 * t := ⟨(k - 1) / 2, by omega⟩
  rw [dimension_pad_of_odd hk]
  refine ⟨_, rfl, ?_⟩
  unfold convOutputExtent
  rw [ht, show dl * (2 * t) = 2 * (dl * t) from by ring]
  generalize dl * t = u
  omega

/-- Witness for C3 at the spec's concrete case: kernel 3, dilation 1,
stride 1, input extent 10 resolve to padding 1 per side and output
extent 10. -/
theorem conv_same_padding_preserves_extent_stride_one_witness :
    Conv._dimension_pad 10 3 1 1 = Except.ok 1 ∧
    ∃ p, Conv._dimension_pad 10 3 1 1 = Except.ok p ∧
      convOutputExtent 10 p 3 1 1 = 10 :=
  ⟨by decide,
   conv_same_padding_preserves_extent_stride_one 10 3 1 (by decide) (by decide)⟩

/-- C9: `Conv._dimension_pad` validates only the parity of the kernel size.
For every even stride and even dilation paired with an odd kernel it
completes without error and returns a padding value, although the class
docstring (convolution.py lines 22-24) claims "same" works only when
`kernel_size`, `dilation` and `stride` are all odd. -/
theorem conv_dimension_pad_ignores_even_stride_dilation (d k s dl : Int)
    (hk : k % 2 = 1) (hs : s % 2 = 0) (hdl : dl % 2 = 0) :
    ∃ p, Conv._dimension_pad d k s dl = Except.ok p :=
  ⟨_, dimension_pad_of_odd hk⟩

/-- Witness for C9: odd kernel 3 with even stride 2 and even dilation 2
resolves without error. -/
theorem conv_dimension_pad_ignores_even_stride_dilation_witness :
    ∃ p, Conv._dimension_pad 10 3 2 2 = Except.ok p :=
  conv_dimension_pad_ignores_even_stride_dilation 10 3 2 2
    (by decide) (by decide) (by decide)

/-- C4: broadcasting is equivalence-preserving. For any input shape and any
of the three per-axis parameters, supplying the scalar `v` yields exactly
the same resolved padding as supplying the explicit length-`s` tuple
`(v, ..., v)` where `s` is the number of spatial axes. -/
theorem conv_pad_broadcast_scalar_eq_replicate (shape : List Int)
    (kw : ConvKwargs) (v : Int) :
    resolvedPadding shape { kw with kernel_size := Arg.scalar v } =
        resolvedPadding shape
          { kw with
            kernel_size := Arg.seq (List.replicate (shape.drop 2).length v) } ∧
    resolvedPadding shape { kw with stride := Arg.scalar v } =
        resolvedPadding shape
          { kw with
            stride := Arg.seq (List.replicate (shape.drop 2).length v) } ∧
    resolvedPadding shape { kw with dilation := Arg.scalar v } =
        resolvedPadding shape
          { kw with
            dilation := Arg.seq (List.replicate (shape.drop 2).length v) } :=
  ⟨resolvedPadding_congr shape _ _ rfl (expand_replicate (shape.drop 2) v).symm rfl rfl,
   resolvedPadding_congr shape _ _ rfl rfl (expand_replicate (shape.drop 2) v).symm rfl,
   resolvedPadding_congr shape _ _ rfl rfl rfl (expand_replicate (shape.drop 2) v).symm⟩

/-- C5: the resolver hook modifies at most the `padding` entry of the
kwargs. Whenever `Conv._pad` returns kwargs to the concrete factory, every
entry other than `padding` is unchanged, and when the stored padding is not
the case-insensitive string "same" the whole kwargs (padding included) are
forwarded verbatim. -/
theorem conv_pad_frame_only_padding (shape : List Int) (kw kw2 : ConvKwargs)
    (h : Conv._pad shape kw = Except.ok kw2) :
    kw2.in_channels = kw.in_channels ∧ kw2.out_channels = kw.out_channels ∧
    kw2.kernel_size = kw.kernel_size ∧ kw2.stride = kw.stride ∧
    kw2.dilation = kw.dilation ∧ kw2.groups = kw.groups ∧
    kw2.bias = kw.bias ∧ kw2.padding_mode = kw.padding_mode ∧
    (isSamePadding kw.padding = false → kw2 = kw) := by
  unfold Conv._pad at h
  by_cases hsp : isSamePadding kw.padding = true
  · rw [if_pos hsp] at h
    cases hdp : dimensionPads (zip4 (shape.drop 2)
        (Conv._expand_if_needed (shape.drop 2) kw.kernel_size)
        (Conv._expand_if_needed (shape.drop 2) kw.stride)
        (Conv._expand_if_needed (shape.drop 2) kw.dilation)) with
    | error e =>
      rw [hdp] at h
      exact absurd h (by simp)
    | ok ps =>
      rw [hdp] at h
      injection h with h2
      subst h2
      refine ⟨rfl, rfl, rfl, rfl, rfl, rfl, rfl, rfl, fun hf => ?_⟩
      rw [hf] at hsp
      exact Bool.noConfusion hsp
  · rw [if_neg hsp] at h
    injection h with h2
    subst h2
    exact ⟨rfl, rfl, rfl, rfl, rfl, rfl, rfl, rfl, fun _ => rfl⟩

/-- Witness for C5: an explicit integer padding is forwarded verbatim, all
entries untouched. -/
theorem conv_pad_frame_only_padding_witness :
    kwExplicitPad.in_channels = kwExplicitPad.in_channels ∧
    kwExplicitPad.out_channels = kwExplicitPad.out_channels ∧
    kwExplicitPad.kernel_size = kwExplicitPad.kernel_size ∧
    kwExplicitPad.stride = kwExplicitPad.stride ∧
    kwExplicitPad.dilation = kwExplicitPad.dilation ∧
    kwExplicitPad.groups = kwExplicitPad.groups ∧
    kwExplicitPad.bias = kwExplicitPad.bias ∧
    kwExplicitPad.padding_mode = kwExplicitPad.padding_mode ∧
    (isSamePadding kwExplicitPad.padding = false → kwExplicitPad = kwExplicitPad) :=
  conv_pad_frame_only_padding [2, 3, 8, 8] kwExplicitPad kwExplicitPad (by decide)

/-- C6: a per-axis parameter supplied as an iterable whose length differs
from the number of spatial axes does not make resolution fail: the
zip-based pairing silently truncates, and the resolved padding tuple has
length equal to the shortest of the spatial-axis count and the (expanded)
parameter lengths. -/
theorem conv_pad_zip_truncates (shape : List Int) (kw : ConvKwargs)
    (hsame : isSamePadding kw.padding = true)
    (hodd : ∀ q ∈ convQuads shape kw, q.2.1 % 2 = 1) :
    ∃ ps, Conv._pad shape kw = Except.ok { kw with padding := Padding.seq ps } ∧
      ps.length = min (shape.drop 2).length
        (min (Conv._expand_if_needed (shape.drop 2) kw.kernel_size).length
          (min (Conv._expand_if_needed (shape.drop 2) kw.stride).length
            (Conv._expand_if_needed (shape.drop 2) kw.dilation).length)) := by
  refine ⟨_, conv_pad_same_ok hsame hodd, ?_⟩
  rw [List.length_map]
  unfold convQuads
  exact zip4_length _ _ _ _

/-- Witness for C6: `kernel_size=(3,)` on a 2-spatial-axis input resolves
without error to a padding tuple of length 1, silently dropping the second
axis. -/
theorem conv_pad_zip_truncates_witness :
    ∃ ps, Conv._pad [1, 3, 7, 9] kwShortKernel =
        Except.ok { kwShortKernel with padding := Padding.seq ps } ∧
      ps.length = min (([1, 3, 7, 9] : List Int).drop 2).length
        (min (Conv._expand_if_needed (([1, 3, 7, 9] : List Int).drop 2)
            kwShortKernel.kernel_size).length
          (min (Conv._expand_if_needed (([1, 3, 7, 9] : List Int).drop 2)
              kwShortKernel.stride).length
            (Conv._expand_if_needed (([1, 3, 7, 9] : List Int).drop 2)
              kwShortKernel.dilation).length)) :=
  conv_pad_zip_truncates [1, 3, 7, 9] kwShortKernel (by decide) (by decide)

/-- C7: for an input of rank `r` whose per-axis parameters are scalars or
sequences of length `r - 2`, with nonnegative extents, stride ≥ 1,
dilation ≥ 1 and odd kernel ≥ 1 on each axis, the computed Padding Request
is a tuple of nonnegative integers with exactly one entry per spatial axis,
i.e. length `r - 2`. -/
theorem conv_pad_padding_request_shape (shape : List Int) (kw : ConvKwargs)
    (hsame : isSamePadding kw.padding = true)
    (hshape : ∀ d ∈ shape, 0 ≤ d)
    (hkm : argMatches (shape.drop 2) kw.kernel_size)
    (hsm : argMatches (shape.drop 2) kw.stride)
    (hdm : argMatches (shape.drop 2) kw.dilation)
    (hk : ∀ k ∈ Conv._expand_if_needed (shape.drop 2) kw.kernel_size,
        k % 2 = 1 ∧ 1 ≤ k)
    (hs : ∀ s ∈ Conv._expand_if_needed (shape.drop 2) kw.stride, 1 ≤ s)
    (hdl : ∀ dl ∈ Conv._expand_if_needed (shape.drop 2) kw.dilation, 1 ≤ dl) :
    ∃ ps, Conv._pad shape kw = Except.ok { kw with padding := Padding.seq ps } ∧
      ps.length = shape.length - 2 ∧ ∀ p ∈ ps, 0 ≤ p := by
  have hmem : ∀ q ∈ convQuads shape kw, q.1 ∈ shape.drop 2 ∧
      q.2.1 ∈ Conv._expand_if_needed (shape.drop 2) kw.kernel_size ∧
      q.2.2.1 ∈ Conv._expand_if_needed (shape.drop 2) kw.stride ∧
      q.2.2.2 ∈ Conv._expand_if_needed (shape.drop 2) kw.dilation := by
    intro q hq
    unfold convQuads at hq
    exact mem_zip4 hq
  have hodd : ∀ q ∈ convQuads shape kw, q.2.1 % 2 = 1 :=
    fun q hq => (hk _ (hmem q hq).2.1).1
  refine ⟨_, conv_pad_same_ok hsame hodd, ?_, ?_⟩
  · rw [List.length_map]
    unfold convQuads
    rw [zip4_length, expand_length _ _ hkm, expand_length _ _ hsm,
      expand_length _ _ hdm, List.length_drop]
    omega
  · intro p hp
    rw [List.mem_map] at hp
    obtain ⟨q, hq, rfl⟩ := hp
    obtain ⟨hqd, hqk, hqs, hqdl⟩ := hmem q hq
    obtain ⟨d, k, s, dl⟩ := q
    have hd0 : 0 ≤ d := hshape _ (List.drop_subset 2 shape hqd)
    have hk1 : 1 ≤ k := (hk _ hqk).2
    have hs1 : 1 ≤ s := hs _ hqs
    have hdl1 : 1 ≤ dl := hdl _ hqdl
    unfold padFormula
    dsimp only
    have hnum : d * s - d + dl * (k - 1) = d * (s - 1) + dl * (k - 1) := by
      ring
    have h1 : 0 ≤ d * (s - 1) := mul_nonneg hd0 (by omega)
    have h2 : 0 ≤ dl * (k - 1) := mul_nonneg (by omega) (by omega)
    exact Int.ediv_nonneg (by omega) (by norm_num)

/-- Witness for C7 at rank 4, spatial extents `(16, 16)`, scalar parameters
kernel 3, stride 1, dilation 1: a padding tuple of length 2 with
nonnegative entries. -/
theorem conv_pad_padding_request_shape_witness :
    ∃ ps, Conv._pad [2, 3, 16, 16] kwSame =
        Except.ok { kwSame with padding := Padding.seq ps } ∧
      ps.length = ([2, 3, 16, 16] : List Int).length - 2 ∧ ∀ p ∈ ps, 0 ≤ p :=
  conv_pad_padding_request_shape [2, 3, 16, 16] kwSame (by decide) (by decide)
    (by trivial) (by trivial) (by trivial) (by decide) (by decide) (by decide)

/-- C8: `Conv.__init__` installs `Conv._pad` as its construction hook, while
`ConvTranspose.__init__` registers none and therefore gets the default
pass-through construction, which forwards its kwargs unchanged regardless of
input shape — in particular it never resolves a symbolic "same" padding.
The `Conv` hook genuinely differs from the pass-through: on a "same"
configuration it rewrites the padding entry. -/
theorem conv_hook_wiring :
    Conv.instanceCreator = Conv._pad ∧
    (∀ (shape : List Int) (kw : ConvTransposeKwargs),
        ConvTranspose.instanceCreator shape kw = Except.ok kw) ∧
    (∃ (shape : List Int) (kw : ConvKwargs),
        Conv.instanceCreator shape kw ≠ defaultInstanceCreator shape kw) := by
  refine ⟨rfl, fun shape kw => rfl, ⟨[1, 3, 8], kwSame, ?_⟩⟩
  decide

/-- C10: whenever a `Residual` was constructed with a non-`None` projection,
`forward` raises an `AttributeError` (line 302 reads `self.projections`, a
name `__init__` never assigns) before returning, so the supplied projection
module is never applied; with `projection=None`, `forward` returns
`module(inputs) + inputs`. -/
theorem residual_forward_projection_attribute_error {α : Type} [Add α]
    (r : Residual α) (inputs : α) :
    (r.projection.isSome = true →
        r.forward inputs = Except.error "AttributeError: projections") ∧
    (r.projection = none →
        r.forward inputs = Except.ok (r.module inputs + inputs)) := by
  constructor
  · intro hsome
    cases hr : r.projection with
    | none =>
      rw [hr] at hsome
      simp at hsome
    | some f =>
      unfold Residual.forward
      rw [hr]
      unfold Residual.getattr
      rw [if_neg (by decide), if_neg (by decide)]
      rfl
  · intro hnone
    unfold Residual.forward
    rw [hnone]

/-- Witness for C10: with a projection, `forward 5` raises the attribute
error; without one, `forward 5` returns `2 * 5 + 5 = 15`. -/
theorem residual_forward_projection_attribute_error_witness :
    Residual.forward residualWithProj 5 =
        Except.error "AttributeError: projections" ∧
    Residual.forward residualNoProj 5 = Except.ok 15 :=
  ⟨(residual_forward_projection_attribute_error residualWithProj 5).1 rfl,
   (residual_forward_projection_attribute_error residualNoProj 5).2 rfl⟩
